import Mathlib

/-!
# Verification of yamling's YAML loading pipeline

Shallow embedding of the yamling repository's YAML loading core:
the deep merger, the `INHERIT` inheritance resolver
(`yamling/yaml_loaders.py::_resolve_inherit`, `load_yaml`, `load_yaml_file`),
the universal entry points (`yamling/load_universal.py::load`, `load_file`),
and the Jinja2 template constructor
(`yamling/yaml_loaders.py::get_jinja2_constructor::construct_jinja2_str`).

YAML documents are modelled as trees of scalars, sequences and mappings;
mappings are association lists with string keys in insertion order,
mirroring the Python dicts produced by the parser.  Parsing itself is an
external collaborator (`parse(text) -> tree`), so the filesystem is
modelled as a finite map from paths to already-parsed documents.
Recursion between the loader and the inheritance resolver is unbounded in
the source (cycles exhaust the call stack), so the loader is embedded with
an explicit fuel parameter modelling the available recursion depth; fuel
exhaustion models Python's `RecursionError`.
-/

mutual
/-- A parsed YAML document: scalars, sequences, and mappings. -/
inductive YValue where
  | str (s : String)
  | int (n : Int)
  | bool (b : Bool)
  | null
  | seq (items : YList)
  | map (entries : YMap)

/-- A parsed YAML sequence, as a list of values. -/
inductive YList where
  | nil
  | cons (v : YValue) (rest : YList)

/-- A parsed YAML mapping, as an association list of string keys and values
in insertion order (a Python dict). -/
inductive YMap where
  | nil
  | cons (k : String) (v : YValue) (rest : YMap)
end

/-- Build a `YList` from a Lean list, for writing concrete documents. -/
def YList.ofList : List YValue → YList
  | [] => .nil
  | v :: r => .cons v (YList.ofList r)

/-- Build a `YMap` from a Lean association list, for writing concrete
documents. -/
def YMap.ofList : List (String × YValue) → YMap
  | [] => .nil
  | (k, v) :: r => .cons k v (YMap.ofList r)

/-- First value bound to key `k` in a mapping (Python `d[k]` / `k in d` on a
dict, where keys are unique). -/
def findVal (k : String) : YMap → Option YValue
  | .nil => none
  | .cons k' v rest => if k' = k then some v else findVal k rest

/-- Remove every entry bound to key `k` (Python `d.pop(k)` removes the unique
entry with that key, leaving the others in order). -/
def removeKey (k : String) : YMap → YMap
  | .nil => .nil
  | .cons k' v rest =>
    if k' = k then removeKey k rest else .cons k' v (removeKey k rest)

/-- Concatenation of two mappings' entry lists. -/
def ymAppend : YMap → YMap → YMap
  | .nil, m => m
  | .cons k v rest, m => .cons k v (ymAppend rest m)

/-- Whether a value is a mapping (Python `isinstance(v, dict)`). -/
def isMapB : YValue → Bool
  | .map _ => true
  | _ => false

/-- Emptiness of a sequence. -/
def YList.isEmpty : YList → Bool
  | .nil => true
  | .cons _ _ => false

/-- Emptiness of a mapping. -/
def YMap.isEmpty : YMap → Bool
  | .nil => true
  | .cons _ _ _ => false

/-- Python truthiness test `if not v` on a parsed YAML value. -/
def isFalsy : YValue → Bool
  | .null => true
  | .bool b => !b
  | .int n => n == 0
  | .str s => s.isEmpty
  | .seq items => items.isEmpty
  | .map entries => entries.isEmpty

mutual
/-- Structural size of a value, used as a sufficient fuel bound for the
merger. -/
def ysize : YValue → Nat
  | .str _ => 1
  | .int _ => 1
  | .bool _ => 1
  | .null => 1
  | .seq items => ylsize items + 1
  | .map entries => ymsize entries + 1

/-- Structural size of a sequence's items. -/
def ylsize : YList → Nat
  | .nil => 0
  | .cons v rest => ysize v + ylsize rest

/-- Structural size of a mapping's values. -/
def ymsize : YMap → Nat
  | .nil => 0
  | .cons _ v rest => ysize v + ymsize rest
end

/-- Modelled from the spec: one row of the merged mapping per base entry —
the base entry's key, with the overlay's value at that key merged over the
base's value (by the supplied merge function) when the overlay has the key,
else the base's value.  `yamling/deepmerge.py` (`DeepMerger`) is not under
`src/` — only its call sites are — so the merger is modelled from spec
§4.1. -/
def mergeRows (f : YValue → YValue → YValue) (oe : YMap) : YMap → YMap
  | .nil => .nil
  | .cons k bv rest =>
    match findVal k oe with
    | some ov => .cons k (f ov bv) (mergeRows f oe rest)
    | none => .cons k bv (mergeRows f oe rest)

/-- Modelled from the spec: the overlay entries whose key is absent from the
base, appended after the base's rows so that the merged mapping contains
every key of either side (spec §4.1). -/
def extraRows : YMap → YMap → YMap
  | .nil, _ => .nil
  | .cons k ov rest, be =>
    if (findVal k be).isNone then .cons k ov (extraRows rest be)
    else extraRows rest be

/-- Modelled from the spec: `DeepMerger.merge(overlay, base)` (spec §4.1):
if both sides are mappings the result is a new mapping combining every key
of either side, recursing into values; otherwise `overlay` replaces `base`
wholesale.  The fuel argument makes the recursion structural; `merge` below
instantiates it with the sufficient bound `ysize overlay`, which the fuel
never undercuts (values found in the overlay are strictly smaller). -/
def mergeF : Nat → YValue → YValue → YValue
  | 0, o, _ => o
  | n + 1, o, b =>
    match o, b with
    | .map oe, .map be => .map (ymAppend (mergeRows (mergeF n) oe be) (extraRows oe be))
    | o, _ => o

/-- Modelled from the spec: `DeepMerger.merge(overlay, base)` (spec §4.1),
total wrapper of `mergeF` at the sufficient fuel `ysize overlay`. -/
def merge (o b : YValue) : YValue :=
  mergeF (ysize o) o b

/-- The entry list of the merge of two mappings, written without fuel. -/
def mergeEntries (oe be : YMap) : YMap :=
  ymAppend (mergeRows merge oe be) (extraRows oe be)

example : merge (.map (.ofList [("k", .int 2)])) (.map (.ofList [("k", .int 1)]))
    = .map (.ofList [("k", .int 2)]) := rfl
example : merge (.int 3) (.map (.ofList [("k", .int 1)])) = .int 3 := rfl
example :
    merge (.map (.ofList [("a", .map (.ofList [("x", .int 1)]))]))
      (.map (.ofList [("a", .map (.ofList [("y", .int 2)])), ("b", .null)]))
    = .map (.ofList [("a", .map (.ofList [("y", .int 2), ("x", .int 1)])), ("b", .null)]) := rfl

/-! ## The loading pipeline

`yaml_loaders.load_yaml_file` resolves the path, reads the text, parses it
via `load_yaml` (explicitly passing `resolve_inherit=False`; moreover the
text is a plain string without a `name` attribute, so the string path never
resolves inheritance), and then, when `resolve_inherit` is requested, applies
`_resolve_inherit` with the file's parent directory.  `_resolve_inherit`
pops the `INHERIT` key from the caller's dict, loads each referenced parent
through `load_yaml_file` (with inheritance resolution enabled) in reverse
list order, and merges the accumulated child over each parent.
-/

/-- A file path as a list of segments: `p.dropLast` models `path.parent` and
`dir ++ [s]` models `base_dir / s`. -/
abbrev FPath := List String

/-- The filesystem, as a finite map from paths to already-parsed documents
(parsing is an external collaborator, `parse(text) -> tree`). -/
abbrev FS := List (FPath × YValue)

/-- Read and parse the file at `p`: `none` models `FileNotFoundError` from
`read_text`. -/
def lookupFS : FS → FPath → Option YValue
  | [], _ => none
  | (q, d) :: rest, p => if q = p then some d else lookupFS rest p

/-- Failures of a load: a missing file (`OSError`/`FileNotFoundError`,
propagated unchanged), call-stack exhaustion (`RecursionError`), malformed
content (`yaml.YAMLError`, wrapped as a parsing error), and a `TypeError`
from joining a non-string parent reference onto a directory. -/
inductive LoadErr where
  | fileNotFound (p : FPath)
  | recursionDepth
  | parseError
  | typeError
  deriving DecidableEq

/-- The `INHERIT` value as a list of path strings when it is a sequence:
`none` when some element is not a string (joining it onto the base
directory would raise `TypeError`). -/
def strPaths : YList → Option (List String)
  | .nil => some []
  | .cons (.str s) rest => (strPaths rest).map (s :: ·)
  | .cons _ _ => none

/-- Normalization of the `INHERIT` value:
`[parent_path] if isinstance(parent_path, str) else parent_path`. -/
def pathListOf : YValue → Option (List String)
  | .str s => some [s]
  | .seq items => strPaths items
  | _ => none

/-- The parent-merging loop of `_resolve_inherit`: for each path (the caller
passes the reversed `INHERIT` list), load the parent with inheritance
resolution enabled and merge the accumulated data (overlay) over the parent
(base): `data = context.merge(data, parent_data)`. -/
def mergeParentsCore (loadFn : FPath → Except LoadErr YValue) (dir : FPath) :
    List String → YValue → Except LoadErr YValue
  | [], acc => .ok acc
  | p :: rest, acc =>
    match loadFn (dir ++ [p]) with
    | .error e => .error e
    | .ok parentData => mergeParentsCore loadFn dir rest (merge acc parentData)

/-- `_resolve_inherit(data, base_dir, ...)` (the same logic appears in
`yamling/yaml_loaders.py` and `yamling/load_universal.py`, differing only in
the loader used for parents, abstracted here as `loadFn`).  The second
component of the result is the final state of the caller's `data` object:
the source pops `INHERIT` from that very dict, so its final state is the
original mapping minus the `INHERIT` entry whenever the directive is acted
on, and is unchanged on the no-op paths.  Returns the input unchanged when
the data is not a mapping, has no `INHERIT` key, or no base directory is
available; pops the key and returns the rest when the value is falsy; else
normalizes the value to a path list and folds the parents in reverse
order. -/
def resolveInheritCore (loadFn : FPath → Except LoadErr YValue)
    (dirOpt : Option FPath) (data : YValue) : Except LoadErr (YValue × YValue) :=
  match data, dirOpt with
  | .map entries, some dir =>
    match findVal "INHERIT" entries with
    | none => .ok (.map entries, .map entries)
    | some parentPath =>
      if isFalsy parentPath then
        .ok (.map (removeKey "INHERIT" entries), .map (removeKey "INHERIT" entries))
      else
        match pathListOf parentPath with
        | none => .error .typeError
        | some filePaths =>
          match mergeParentsCore loadFn dir filePaths.reverse
              (.map (removeKey "INHERIT" entries)) with
          | .error e => .error e
          | .ok merged => .ok (merged, .map (removeKey "INHERIT" entries))
  | _, _ => .ok (data, data)

/-- `yaml_loaders.load_yaml_file(path, ..., resolve_inherit, ...)`: read and
parse the file (the inner `load_yaml` call is passed
`resolve_inherit=False` and a plain string, so it returns the parsed data
unchanged), then apply `_resolve_inherit` with the file's parent directory
when requested.  The fuel models the available Python recursion depth; fuel
exhaustion is `RecursionError`. -/
def loadYamlFileE : Nat → FS → FPath → Bool → Except LoadErr YValue
  | 0, _, _, _ => .error .recursionDepth
  | fuel + 1, fs, path, resolveInherit =>
    match lookupFS fs path with
    | none => .error (.fileNotFound path)
    | some data =>
      if resolveInherit then
        match resolveInheritCore (fun p => loadYamlFileE fuel fs p true)
            (some path.dropLast) data with
        | .error e => .error e
        | .ok (merged, _) => .ok merged
      else .ok data

/-- `yaml_loaders.load_yaml(text, ..., resolve_inherit, ...)`: parse the
text (`data` is the parse result), and resolve inheritance only when it was
requested AND the input object has a `name` attribute (`textName`); a raw
string has none, so it never resolves. -/
def loadYamlE (fuel : Nat) (fs : FS) (data : YValue) (textName : Option FPath)
    (resolveInherit : Bool) : Except LoadErr YValue :=
  if resolveInherit then
    match textName with
    | some n =>
      match resolveInheritCore (fun p => loadYamlFileE fuel fs p true)
          (some n.dropLast) data with
      | .error e => .error e
      | .ok (merged, _) => .ok merged
    | none => .ok data
  else .ok data

/-- `load_universal.load_file(path, ..., resolve_inherit=True)`: read the
text and return `load(text, mode, verify_type=verify_type)`.  The
`resolve_inherit` parameter is accepted (and documented) but not forwarded
to `load`, whose own `resolve_inherit` then defaults to `False`, so the
parsed document is returned unchanged whatever the argument. -/
def loadFileU : Nat → FS → FPath → Bool → Except LoadErr YValue
  | 0, _, _, _ => .error .recursionDepth
  | _ + 1, fs, path, _resolveInherit =>
    match lookupFS fs path with
    | none => .error (.fileNotFound path)
    | some data => .ok data

/-- `load_universal._resolve_inherit(data, base_dir, mode)`: same logic as
the `yaml_loaders` resolver, loading parents through
`load_file(parent_cfg, mode=mode, resolve_inherit=True)`. -/
def resolveInheritU (fuel : Nat) (fs : FS) (dirOpt : Option FPath)
    (data : YValue) : Except LoadErr (YValue × YValue) :=
  resolveInheritCore (fun p => loadFileU fuel fs p true) dirOpt data

/-- The `resolve_inherit` argument of `load_universal.load`:
`bool | JoinablePathLike`. -/
inductive RIArg where
  | flag (b : Bool)
  | path (p : FPath)

/-- Python truthiness of the `resolve_inherit` argument. -/
def riTruthy : RIArg → Bool
  | .flag b => b
  | .path _ => true

/-- The base directory `load` derives from `resolve_inherit`: the input text
is a plain string without a `name` attribute, so only a path-like argument
yields a base directory. -/
def riBaseDir : RIArg → Option FPath
  | .flag _ => none
  | .path p => some p

/-- `load_universal.load(text, mode, verify_type, resolve_inherit)`: parse
the text (`data` is the parse result); when `resolve_inherit` is truthy and
a base directory can be derived, resolve inheritance with it. -/
def loadU (fuel : Nat) (fs : FS) (data : YValue) (ri : RIArg) :
    Except LoadErr YValue :=
  if riTruthy ri then
    match riBaseDir ri with
    | some baseDir =>
      match resolveInheritU fuel fs (some baseDir) data with
      | .error e => .error e
      | .ok (merged, _) => .ok merged
    | none => .ok data
  else .ok data

/-- Whether a document carries a top-level `INHERIT` key. -/
def hasInheritTop : YValue → Bool
  | .map entries => (findVal "INHERIT" entries).isSome
  | _ => false

/-! ## The Jinja2 template constructor

`get_jinja2_constructor(env, resolve_strings, resolve_dict_keys)` returns
`construct_jinja2_str(loader, node)`, whose whole body runs inside a
`try`: `except jinja2.TemplateError: raise` re-raises template-engine
errors, and `except Exception: return loader.construct_scalar(node)`
answers any other exception with the loader's scalar construction of the
node.
-/

/-- A YAML node as the constructor receives it, carrying its constructed
content (scalar text, mapping entries, sequence items). -/
inductive YNode where
  | scalar (s : String)
  | mapping (entries : YMap)
  | sequence (items : YList)

/-- Exceptions during node construction: `jinja2.TemplateError`, PyYAML's
`ConstructorError`, and any other unexpected exception. -/
inductive JErr where
  | template
  | consError
  | other
  deriving DecidableEq

/-- Exceptions a template render can raise: a `jinja2.TemplateError`, or any
other exception propagating out of `env.from_string(...).render()`. -/
inductive RenderErr where
  | template
  | other
  deriving DecidableEq

/-- Embed a render exception into the constructor's exception type. -/
def renderErrToJ : RenderErr → JErr
  | .template => .template
  | .other => .other

/-- Modelled from PyYAML (an external collaborator): `construct_scalar`
returns the scalar node's string and raises a `ConstructorError` when the
node is not a scalar node. -/
def constructScalar : YNode → Except JErr YValue
  | .scalar s => .ok (.str s)
  | _ => .error .consError

/-- The dict comprehension of `construct_jinja2_str` for a mapping node with
`resolve_dict_keys`: render every (string) key through the engine, keeping
values. -/
def renderKeysM (render : String → Except RenderErr String) :
    YMap → Except RenderErr YMap
  | .nil => .ok .nil
  | .cons k v rest =>
    match render k with
    | .error e => .error e
    | .ok k' =>
      match renderKeysM render rest with
      | .error e => .error e
      | .ok rest' => .ok (.cons k' v rest')

/-- The body of `construct_jinja2_str`'s `try` block: without an engine or
with string resolution disabled, construct the scalar; otherwise render a
scalar node's text, render a mapping node's keys when `resolve_dict_keys`,
and pass a sequence node through. -/
def jinjaBody (env : Option (String → Except RenderErr String))
    (resolveStrings resolveDictKeys : Bool) (node : YNode) :
    Except JErr YValue :=
  match env, resolveStrings with
  | none, _ => constructScalar node
  | some _, false => constructScalar node
  | some render, true =>
    match node with
    | .scalar s =>
      match render s with
      | .error e => .error (renderErrToJ e)
      | .ok t => .ok (.str t)
    | .mapping entries =>
      if resolveDictKeys then
        match renderKeysM render entries with
        | .error e => .error (renderErrToJ e)
        | .ok entries' => .ok (.map entries')
      else .ok (.map entries)
    | .sequence items => .ok (.seq items)

/-- `construct_jinja2_str(loader, node)`: run the body; re-raise a
`jinja2.TemplateError`; answer any other exception with
`loader.construct_scalar(node)` (which itself raises on a non-scalar
node). -/
def constructJinja2Str (env : Option (String → Except RenderErr String))
    (resolveStrings resolveDictKeys : Bool) (node : YNode) :
    Except JErr YValue :=
  match jinjaBody env resolveStrings resolveDictKeys node with
  | .ok v => .ok v
  | .error .template => .error .template
  | .error _ => constructScalar node

/-! ## Concrete filesystems for witnesses and counterexamples -/

/-- Two parents disagreeing on key `k` (`a.yaml` binds it to `1`,
`b.yaml` to `2`) and a child inheriting `INHERIT: [a.yaml, b.yaml]`. -/
def exFS1 : FS :=
  [(["a.yaml"], .map (.ofList [("k", .int 1), ("onlyA", .str "A")])),
   (["b.yaml"], .map (.ofList [("k", .int 2), ("onlyB", .str "B")])),
   (["c.yaml"], .map (.ofList
     [("INHERIT", .seq (.ofList [.str "a.yaml", .str "b.yaml"])),
      ("own", .str "child")]))]

/-- The mutual `INHERIT` cycle of the repository's own test suite:
`circular1.yaml` inherits `circular2.yaml` and vice versa. -/
def cycFS : FS :=
  [(["circular1.yaml"], .map (.ofList
     [("INHERIT", .str "circular2.yaml"), ("name", .str "circular1")])),
   (["circular2.yaml"], .map (.ofList
     [("INHERIT", .str "circular1.yaml"), ("name", .str "circular2")]))]

/-- A config file carrying an `INHERIT` directive and its parent. -/
def uFS : FS :=
  [(["cfg.yaml"], .map (.ofList
     [("INHERIT", .str "base.yaml"), ("name", .str "cfg")])),
   (["base.yaml"], .map (.ofList [("version", .str "1.0")]))]

/-- The base/feature pair of the repository's test suite. -/
def inhFS : FS :=
  [(["base.yaml"], .map (.ofList [("name", .str "base"), ("version", .str "1.0")])),
   (["feature.yaml"], .map (.ofList
     [("INHERIT", .str "base.yaml"), ("name", .str "feature")]))]

/-- A render function whose every call raises a non-template exception. -/
def badRender : String → Except RenderErr String := fun _ => .error .other
/-! ## Properties of the merger -/

/-- A value found in a mapping is strictly smaller than the mapping's
entry list. -/
theorem findVal_ysize_lt (k : String) : ∀ (m : YMap) (v : YValue),
    findVal k m = some v → ysize v < ymsize m + 1
  | .nil, v, h => by simp [findVal] at h
  | .cons k' w rest, v, h => by
    by_cases hk : k' = k
    · have hv : w = v := by simpa [findVal, hk] using h
      subst hv
      simp only [ymsize]
      omega
    · have h' := findVal_ysize_lt k rest v (by simpa [findVal, hk] using h)
      simp only [ymsize]
      omega

/-- Merged rows only depend on the merge function's values at the overlay's
entries. -/
theorem mergeRows_congr (f g : YValue → YValue → YValue) (S : Nat) (oe : YMap)
    (hS : ymsize oe + 1 ≤ S)
    (hfg : ∀ v w, ysize v < S → f v w = g v w) :
    ∀ be, mergeRows f oe be = mergeRows g oe be
  | .nil => rfl
  | .cons k bv rest => by
    have ih := mergeRows_congr f g S oe hS hfg rest
    simp only [mergeRows]
    cases hfv : findVal k oe with
    | none => simp [ih]
    | some ov =>
      have hlt : ysize ov < S := lt_of_lt_of_le (findVal_ysize_lt k oe ov hfv) hS
      simp [ih, hfg ov bv hlt]

/-- The fueled merger is independent of the fuel once the fuel reaches the
overlay's size. -/
theorem mergeF_congr : ∀ n m o b, ysize o ≤ n → ysize o ≤ m →
    mergeF n o b = mergeF m o b := by
  intro n
  induction n with
  | zero =>
    intro m o b ho _
    cases o <;> simp [ysize] at ho
  | succ n ih =>
    intro m o b ho hm
    have hm1 : 1 ≤ m := by
      cases o <;> simp [ysize] at hm ⊢ <;> omega
    obtain ⟨m', rfl⟩ : ∃ m', m = m' + 1 := ⟨m - 1, by omega⟩
    cases o with
    | map oe =>
      cases b with
      | map be =>
        simp only [mergeF]
        have hrows : mergeRows (mergeF n) oe be = mergeRows (mergeF m') oe be := by
          apply mergeRows_congr _ _ (ymsize oe + 1) oe le_rfl
          intro v w hv
          have hn : ymsize oe + 1 ≤ n + 1 := by simpa [ysize] using ho
          have hm2 : ymsize oe + 1 ≤ m' + 1 := by simpa [ysize] using hm
          exact ih m' v w (by omega) (by omega)
        rw [hrows]
      | str s => rfl
      | int j => rfl
      | bool c => rfl
      | null => rfl
      | seq l => rfl
    | str s => cases b <;> rfl
    | int j => cases b <;> rfl
    | bool c => cases b <;> rfl
    | null => cases b <;> rfl
    | seq l => cases b <;> rfl

/-- Merging two mappings yields the mapping of their merged entries. -/
theorem merge_map_eq (oe be : YMap) :
    merge (.map oe) (.map be) = .map (mergeEntries oe be) := by
  show mergeF (ymsize oe + 1) (.map oe) (.map be) = _
  simp only [mergeF, mergeEntries]
  have hrows : mergeRows (mergeF (ymsize oe)) oe be = mergeRows merge oe be := by
    apply mergeRows_congr _ _ (ymsize oe + 1) oe le_rfl
    intro v w hv
    exact mergeF_congr (ymsize oe) (ysize v) v w (by omega) le_rfl
  rw [hrows]

/-- Merging is wholesale replacement by the overlay when either side is not
a mapping. -/
theorem merge_nonmap (o b : YValue) (h : isMapB o = false ∨ isMapB b = false) :
    merge o b = o := by
  cases o <;> cases b <;> simp [isMapB] at h <;> rfl

/-- Key lookup in the merged rows: every base key is present, bound to the
merge of the overlay's value over the base's value when the overlay has the
key. -/
theorem findVal_mergeRows (f : YValue → YValue → YValue) (k : String)
    (oe : YMap) : ∀ be, findVal k (mergeRows f oe be) =
      match findVal k be with
      | some bv =>
        some (match findVal k oe with
              | some ov => f ov bv
              | none => bv)
      | none => none
  | .nil => rfl
  | .cons k' bv rest => by
    have ih := findVal_mergeRows f k oe rest
    by_cases hk : k' = k
    · subst hk
      cases hfv : findVal k' oe <;> simp [mergeRows, findVal, hfv]
    · cases hfv : findVal k' oe <;> simp [mergeRows, findVal, hfv, hk, ih]

/-- Key lookup across concatenated entry lists. -/
theorem findVal_ymAppend (k : String) (m2 : YMap) : ∀ m1,
    findVal k (ymAppend m1 m2) =
      match findVal k m1 with
      | some v => some v
      | none => findVal k m2
  | .nil => rfl
  | .cons k' v rest => by
    have ih := findVal_ymAppend k m2 rest
    by_cases hk : k' = k <;> simp [ymAppend, findVal, hk, ih]

/-- Key lookup in the overlay's extra rows: an overlay key absent from the
base keeps the overlay's value; a key present in the base never appears. -/
theorem findVal_extraRows (k : String) (be : YMap) : ∀ oe,
    findVal k (extraRows oe be) =
      match findVal k be with
      | some _ => none
      | none => findVal k oe
  | .nil => by cases findVal k be <;> rfl
  | .cons k' ov rest => by
    have ih := findVal_extraRows k be rest
    by_cases hk : k' = k
    · subst hk
      cases hbe : findVal k' be <;> simp [extraRows, hbe, findVal, ih]
    · cases hbe' : findVal k' be <;>
        cases hbe : findVal k be <;>
          simp [extraRows, hbe', hbe, findVal, hk, ih]

/-- Per-key characterization of the merged entries of two mappings: the
merged mapping has exactly the keys of either side; a key in both sides is
bound to the merge of the two values, a key in one side keeps that side's
value. -/
theorem findVal_mergeEntries (k : String) (oe be : YMap) :
    findVal k (mergeEntries oe be) =
      match findVal k oe, findVal k be with
      | some ov, some bv => some (merge ov bv)
      | some ov, none => some ov
      | none, r => r := by
  simp only [mergeEntries, findVal_ymAppend, findVal_mergeRows, findVal_extraRows]
  cases findVal k oe <;> cases findVal k be <;> rfl


/-! ## Properties of the loading pipeline -/

/-- Looking up a key other than the removed one is unaffected by the
removal. -/
theorem findVal_removeKey (k k' : String) (hne : k ≠ k') : ∀ es : YMap,
    findVal k (removeKey k' es) = findVal k es
  | .nil => rfl
  | .cons k0 v rest => by
    have ih := findVal_removeKey k k' hne rest
    by_cases h0 : k0 = k'
    · have hk' : ¬ k' = k := fun hh => hne hh.symm
      simp [removeKey, h0, findVal, hk', ih]
    · simp [removeKey, h0, findVal, ih]

/-- The removed key is absent after removal. -/
theorem findVal_removeKey_self (k : String) : ∀ es : YMap,
    findVal k (removeKey k es) = none
  | .nil => rfl
  | .cons k0 v rest => by
    have ih := findVal_removeKey_self k rest
    by_cases h0 : k0 = k <;> simp [removeKey, h0, findVal, ih]

/-- Merging two documents without a top-level `INHERIT` key yields a
document without one. -/
theorem hasInheritTop_merge : ∀ a b : YValue, hasInheritTop a = false →
    hasInheritTop b = false → hasInheritTop (merge a b) = false
  | .str s, b, ha, _ => by rw [merge_nonmap (.str s) b (Or.inl rfl)]; exact ha
  | .int n, b, ha, _ => by rw [merge_nonmap (.int n) b (Or.inl rfl)]; exact ha
  | .bool c, b, ha, _ => by rw [merge_nonmap (.bool c) b (Or.inl rfl)]; exact ha
  | .null, b, ha, _ => by rw [merge_nonmap .null b (Or.inl rfl)]; exact ha
  | .seq l, b, ha, _ => by rw [merge_nonmap (.seq l) b (Or.inl rfl)]; exact ha
  | .map ae, .str s, ha, _ => by rw [merge_nonmap (.map ae) (.str s) (Or.inr rfl)]; exact ha
  | .map ae, .int n, ha, _ => by rw [merge_nonmap (.map ae) (.int n) (Or.inr rfl)]; exact ha
  | .map ae, .bool c, ha, _ => by rw [merge_nonmap (.map ae) (.bool c) (Or.inr rfl)]; exact ha
  | .map ae, .null, ha, _ => by rw [merge_nonmap (.map ae) .null (Or.inr rfl)]; exact ha
  | .map ae, .seq l, ha, _ => by rw [merge_nonmap (.map ae) (.seq l) (Or.inr rfl)]; exact ha
  | .map ae, .map be, ha, hb => by
    rw [merge_map_eq]
    simp only [hasInheritTop] at ha hb ⊢
    rw [findVal_mergeEntries]
    cases hae : findVal "INHERIT" ae with
    | some v => rw [hae] at ha; simp at ha
    | none =>
      cases hbe : findVal "INHERIT" be with
      | some v => rw [hbe] at hb; simp at hb
      | none => simp

/-- The parent-merging loop preserves freedom from a top-level `INHERIT`
key, provided every parent load yields an `INHERIT`-free document. -/
theorem mergeParentsCore_noInh (loadFn : FPath → Except LoadErr YValue)
    (dir : FPath)
    (hload : ∀ p v, loadFn p = .ok v → hasInheritTop v = false) :
    ∀ (ps : List String) (acc v : YValue), hasInheritTop acc = false →
      mergeParentsCore loadFn dir ps acc = .ok v → hasInheritTop v = false := by
  intro ps
  induction ps with
  | nil =>
    intro acc v hacc h
    simp only [mergeParentsCore] at h
    cases h
    exact hacc
  | cons p rest ih =>
    intro acc v hacc h
    simp only [mergeParentsCore] at h
    cases hl : loadFn (dir ++ [p]) with
    | error e => rw [hl] at h; simp at h
    | ok pd =>
      rw [hl] at h
      exact ih (merge acc pd) v (hasInheritTop_merge acc pd hacc (hload _ pd hl)) h

/-- The inheritance resolver always yields a document without a top-level
`INHERIT` key, provided every parent load does. -/
theorem resolveInheritCore_noInh (loadFn : FPath → Except LoadErr YValue)
    (dir : FPath) (d r st : YValue)
    (hload : ∀ p v, loadFn p = .ok v → hasInheritTop v = false)
    (h : resolveInheritCore loadFn (some dir) d = .ok (r, st)) :
    hasInheritTop r = false := by
  cases d with
  | str s => cases h; rfl
  | int n => cases h; rfl
  | bool c => cases h; rfl
  | null => cases h; rfl
  | seq l => cases h; rfl
  | map es =>
    simp only [resolveInheritCore] at h
    cases hi : findVal "INHERIT" es with
    | none =>
      rw [hi] at h
      cases h
      simp [hasInheritTop, hi]
    | some pv =>
      rw [hi] at h
      by_cases hf : isFalsy pv = true
      · simp only [hf, if_true] at h
        cases h
        simp [hasInheritTop, findVal_removeKey_self]
      · simp only [Bool.not_eq_true] at hf
        simp only [hf, Bool.false_eq_true, if_false] at h
        cases hp : pathListOf pv with
        | none => rw [hp] at h; simp at h
        | some ps =>
          rw [hp] at h
          dsimp only at h
          cases hm : mergeParentsCore loadFn dir ps.reverse
              (.map (removeKey "INHERIT" es)) with
          | error e => rw [hm] at h; simp at h
          | ok merged =>
            rw [hm] at h
            cases h
            exact mergeParentsCore_noInh loadFn dir hload ps.reverse _ _
              (by simp [hasInheritTop, findVal_removeKey_self]) hm

/-! ## Claims -/

/-- C3: for every file loaded with inheritance resolution enabled, whatever
the depth of the inheritance chain, the returned merged result never
contains the top-level key `INHERIT`: the key is removed from the child
before merging and every recursively loaded ancestor has its own `INHERIT`
key consumed the same way. -/
theorem merged_result_inherit_free : ∀ (fuel : Nat) (fs : FS) (path : FPath)
    (v : YValue), loadYamlFileE fuel fs path true = .ok v →
    hasInheritTop v = false := by
  intro fuel
  induction fuel with
  | zero => intro fs path v h; simp [loadYamlFileE] at h
  | succ n ih =>
    intro fs path v h
    simp only [loadYamlFileE] at h
    cases hfs : lookupFS fs path with
    | none => rw [hfs] at h; simp at h
    | some data =>
      rw [hfs] at h
      dsimp only [if_true] at h
      cases hres : resolveInheritCore (fun p => loadYamlFileE n fs p true)
          (some path.dropLast) data with
      | error e => rw [hres] at h; simp at h
      | ok pr =>
        obtain ⟨merged, st⟩ := pr
        rw [hres] at h
        dsimp only at h
        cases h
        exact resolveInheritCore_noInh _ path.dropLast data _ _
          (fun p w hw => ih fs p w hw) hres

/-- Witness for C3 at a concrete load: resolving `feature.yaml` over
`base.yaml` yields a result free of the `INHERIT` key. -/
theorem merged_result_inherit_free_witness :
    hasInheritTop (.map (.ofList
      [("name", .str "feature"), ("version", .str "1.0")])) = false :=
  merged_result_inherit_free 5 inhFS ["feature.yaml"]
    (.map (.ofList [("name", .str "feature"), ("version", .str "1.0")])) rfl

/-- C5: inheritance resolution returns its input unchanged when the
document is not a mapping, or it has no `INHERIT` key, or no source
directory is available (in particular a raw string source, which has no
`name`, never triggers resolution); and when the `INHERIT` value is falsy
the document is returned with only that key removed and nothing else
changed. -/
theorem resolve_inherit_noop_cases :
    (∀ (loadFn : FPath → Except LoadErr YValue) (dirOpt : Option FPath)
      (d : YValue), isMapB d = false →
      resolveInheritCore loadFn dirOpt d = .ok (d, d)) ∧
    (∀ (loadFn : FPath → Except LoadErr YValue) (dir : FPath) (es : YMap),
      findVal "INHERIT" es = none →
      resolveInheritCore loadFn (some dir) (.map es) = .ok (.map es, .map es)) ∧
    (∀ (loadFn : FPath → Except LoadErr YValue) (d : YValue),
      resolveInheritCore loadFn none d = .ok (d, d)) ∧
    (∀ (fuel : Nat) (fs : FS) (d : YValue) (ri : Bool),
      loadYamlE fuel fs d none ri = .ok d) ∧
    (∀ (loadFn : FPath → Except LoadErr YValue) (dir : FPath) (es : YMap)
      (pv : YValue), findVal "INHERIT" es = some pv → isFalsy pv = true →
      resolveInheritCore loadFn (some dir) (.map es) =
        .ok (.map (removeKey "INHERIT" es), .map (removeKey "INHERIT" es))) ∧
    (∀ (es : YMap) (k : String), k ≠ "INHERIT" →
      findVal k (removeKey "INHERIT" es) = findVal k es) := by
  refine ⟨?_, ?_, ?_, ?_, ?_, ?_⟩
  · intro loadFn dirOpt d h
    cases d <;> simp [isMapB] at h <;> cases dirOpt <;> rfl
  · intro loadFn dir es h
    simp [resolveInheritCore, h]
  · intro loadFn d
    cases d <;> rfl
  · intro fuel fs d ri
    cases ri <;> rfl
  · intro loadFn dir es pv h hf
    simp [resolveInheritCore, h, hf]
  · intro es k hk
    exact findVal_removeKey k "INHERIT" hk es

/-- Witness for C5 at concrete inputs: a scalar document, a mapping without
`INHERIT`, a missing base directory, a raw string source, and an empty
`INHERIT` list. -/
theorem resolve_inherit_noop_cases_witness :
    resolveInheritCore (fun _ => .ok .null) (some []) (.str "s")
      = .ok (.str "s", .str "s") ∧
    resolveInheritCore (fun _ => .ok .null) (some [])
      (.map (.cons "x" (.int 1) .nil))
      = .ok (.map (.cons "x" (.int 1) .nil), .map (.cons "x" (.int 1) .nil)) ∧
    resolveInheritCore (fun _ => .ok .null) none
      (.map (.cons "INHERIT" (.str "p") .nil))
      = .ok (.map (.cons "INHERIT" (.str "p") .nil),
             .map (.cons "INHERIT" (.str "p") .nil)) ∧
    loadYamlE 5 [] (.map (.cons "INHERIT" (.str "p") .nil)) none true
      = .ok (.map (.cons "INHERIT" (.str "p") .nil)) ∧
    resolveInheritCore (fun _ => .ok .null) (some [])
      (.map (.cons "INHERIT" (.seq .nil) (.cons "x" (.int 1) .nil)))
      = .ok (.map (.cons "x" (.int 1) .nil), .map (.cons "x" (.int 1) .nil)) ∧
    findVal "x" (removeKey "INHERIT"
      (.cons "INHERIT" (.seq .nil) (.cons "x" (.int 1) .nil)))
      = findVal "x" (.cons "INHERIT" (.seq .nil) (.cons "x" (.int 1) .nil)) := by
  refine ⟨?_, ?_, ?_, ?_, ?_, ?_⟩
  · exact resolve_inherit_noop_cases.1 _ _ _ rfl
  · exact resolve_inherit_noop_cases.2.1 _ _ _ rfl
  · exact resolve_inherit_noop_cases.2.2.1 _ _
  · exact resolve_inherit_noop_cases.2.2.2.1 5 [] _ true
  · exact resolve_inherit_noop_cases.2.2.2.2.1 _ _ _ _ rfl rfl
  · exact resolve_inherit_noop_cases.2.2.2.2.2 _ "x" (by decide)

/-- C6: for every file, loading it with inheritance resolution disabled
returns exactly the document as parsed from the file's text, with any
`INHERIT` key still present verbatim and no parent files read or merged. -/
theorem disabled_inheritance_identity (fuel : Nat) (fs : FS) (path : FPath)
    (doc : YValue) (h : lookupFS fs path = some doc) :
    loadYamlFileE (fuel + 1) fs path false = .ok doc := by
  simp [loadYamlFileE, h]

/-- Witness for C6 at a concrete load: loading `feature.yaml` with
resolution disabled keeps its `INHERIT` entry verbatim. -/
theorem disabled_inheritance_identity_witness :
    loadYamlFileE 5 inhFS ["feature.yaml"] false
      = .ok (.map (.ofList
          [("INHERIT", .str "base.yaml"), ("name", .str "feature")])) :=
  disabled_inheritance_identity 4 inhFS ["feature.yaml"]
    (.map (.ofList [("INHERIT", .str "base.yaml"), ("name", .str "feature")])) rfl

/-- Loading a file whose document carries `INHERIT: <pname>` (a non-empty
string) unfolds to one parent load followed by one merge of the
`INHERIT`-stripped child over the parent. -/
theorem load_single_inherit_step (n : Nat) (fs : FS) (cpath : FPath)
    (ces : YMap) (pname : String)
    (hc : lookupFS fs cpath = some (.map ces))
    (hi : findVal "INHERIT" ces = some (.str pname))
    (hne : pname.isEmpty = false) :
    loadYamlFileE (n + 1) fs cpath true =
      match loadYamlFileE n fs (cpath.dropLast ++ [pname]) true with
      | .error e => .error e
      | .ok pd => .ok (merge (.map (removeKey "INHERIT" ces)) pd) := by
  cases hload : loadYamlFileE n fs (cpath.dropLast ++ [pname]) true with
  | error e =>
    simp [loadYamlFileE, hc, resolveInheritCore, hi, isFalsy, hne, pathListOf,
      mergeParentsCore, hload]
  | ok pd =>
    simp [loadYamlFileE, hc, resolveInheritCore, hi, isFalsy, hne, pathListOf,
      mergeParentsCore, hload]

/-- C7: when an `INHERIT` entry references a nonexistent file, the load with
inheritance resolution enabled fails with the file-not-found resource error
propagated unchanged — not remapped into a parse error — so callers can
distinguish a missing file from malformed content. -/
theorem missing_parent_file_not_found (fuel : Nat) (fs : FS) (cpath : FPath)
    (ces : YMap) (pname : String)
    (hc : lookupFS fs cpath = some (.map ces))
    (hi : findVal "INHERIT" ces = some (.str pname))
    (hne : pname.isEmpty = false)
    (hmiss : lookupFS fs (cpath.dropLast ++ [pname]) = none) :
    loadYamlFileE (fuel + 2) fs cpath true
      = .error (.fileNotFound (cpath.dropLast ++ [pname])) := by
  rw [load_single_inherit_step (fuel + 1) fs cpath ces pname hc hi hne]
  simp [loadYamlFileE, hmiss]

/-- Witness for C7 at the test suite's `invalid.yaml` scenario: the result
is the file-not-found error naming the missing parent. -/
theorem missing_parent_file_not_found_witness :
    loadYamlFileE 5
      [(["invalid.yaml"], .map (.ofList
        [("INHERIT", .str "nonexistent.yaml"), ("name", .str "invalid")]))]
      ["invalid.yaml"] true
      = .error (.fileNotFound ["nonexistent.yaml"]) :=
  missing_parent_file_not_found 3
    [(["invalid.yaml"], .map (.ofList
      [("INHERIT", .str "nonexistent.yaml"), ("name", .str "invalid")]))]
    ["invalid.yaml"]
    (.ofList [("INHERIT", .str "nonexistent.yaml"), ("name", .str "invalid")])
    "nonexistent.yaml" rfl rfl rfl rfl

/-- C8: for the mutual two-file `INHERIT` cycle, loading either file with
inheritance resolution enabled never returns data and never hangs: for
every available recursion depth, the unbounded mutual recursion between the
loader and the resolver (which carries no visited-set) exhausts the depth
and surfaces as a recursion failure. -/
theorem inheritance_cycle_recursion : ∀ fuel : Nat,
    loadYamlFileE fuel cycFS ["circular1.yaml"] true
      = .error .recursionDepth ∧
    loadYamlFileE fuel cycFS ["circular2.yaml"] true
      = .error .recursionDepth := by
  intro fuel
  induction fuel with
  | zero => exact ⟨rfl, rfl⟩
  | succ n ih =>
    obtain ⟨h1, h2⟩ := ih
    constructor
    · rw [load_single_inherit_step n cycFS ["circular1.yaml"]
        (.ofList [("INHERIT", .str "circular2.yaml"), ("name", .str "circular1")])
        "circular2.yaml" rfl rfl rfl]
      rw [show (["circular1.yaml"] : FPath).dropLast ++ ["circular2.yaml"]
            = ["circular2.yaml"] from rfl]
      rw [h2]
    · rw [load_single_inherit_step n cycFS ["circular2.yaml"]
        (.ofList [("INHERIT", .str "circular1.yaml"), ("name", .str "circular2")])
        "circular1.yaml" rfl rfl rfl]
      rw [show (["circular2.yaml"] : FPath).dropLast ++ ["circular1.yaml"]
            = ["circular1.yaml"] from rfl]
      rw [h1]

/-- C2: for every pair (overlay, base): if both are mappings,
`merge(overlay, base)` is a new mapping containing every key of either side
— a key present in both with mapping values on both sides is merged
recursively, and otherwise the overlay's value is used when the key is in
overlay and the base's value when it is not; if either side is not a
mapping, `merge(overlay, base)` equals overlay wholesale. -/
theorem merge_override_law :
    (∀ (oe be : YMap) (k : String), findVal k (mergeEntries oe be) =
      match findVal k oe, findVal k be with
      | some ov, some bv => some (merge ov bv)
      | some ov, none => some ov
      | none, r => r) ∧
    (∀ oe be : YMap, merge (.map oe) (.map be) = .map (mergeEntries oe be)) ∧
    (∀ o b : YValue, isMapB o = false ∨ isMapB b = false → merge o b = o) ∧
    (∀ (oe be : YMap) (k : String) (om bm : YMap),
      findVal k oe = some (.map om) → findVal k be = some (.map bm) →
      findVal k (mergeEntries oe be) = some (.map (mergeEntries om bm))) ∧
    (∀ (oe be : YMap) (k : String) (ov : YValue), findVal k oe = some ov →
      (∀ bv, findVal k be = some bv →
        isMapB ov = false ∨ isMapB bv = false) →
      findVal k (mergeEntries oe be) = some ov) := by
  refine ⟨?_, merge_map_eq, merge_nonmap, ?_, ?_⟩
  · intro oe be k
    exact findVal_mergeEntries k oe be
  · intro oe be k om bm ho hb
    rw [findVal_mergeEntries, ho, hb]
    dsimp only
    rw [merge_map_eq]
  · intro oe be k ov ho hb
    rw [findVal_mergeEntries, ho]
    cases hbe : findVal k be with
    | none => rfl
    | some bv =>
      dsimp only
      rw [merge_nonmap ov bv (hb bv hbe)]

/-- Witness for C2 at concrete inputs: a scalar overlay replaces a mapping
base wholesale; an overlay scalar at a shared key wins; mapping values at a
shared key merge recursively. -/
theorem merge_override_law_witness :
    merge (.int 3) (.map (.cons "k" (.int 1) .nil)) = .int 3 ∧
    findVal "k" (mergeEntries (.cons "k" (.int 2) .nil)
        (.cons "k" (.int 1) .nil)) = some (.int 2) ∧
    findVal "a" (mergeEntries
        (.cons "a" (.map (.cons "x" (.int 1) .nil)) .nil)
        (.cons "a" (.map (.cons "y" (.int 2) .nil)) .nil))
      = some (.map (mergeEntries (.cons "x" (.int 1) .nil)
          (.cons "y" (.int 2) .nil))) := by
  refine ⟨?_, ?_, ?_⟩
  · exact merge_override_law.2.2.1 (.int 3) (.map (.cons "k" (.int 1) .nil))
      (Or.inl rfl)
  · exact merge_override_law.2.2.2.2 (.cons "k" (.int 2) .nil)
      (.cons "k" (.int 1) .nil) "k" (.int 2) rfl
      (fun bv hbv => Or.inl rfl)
  · exact merge_override_law.2.2.2.1
      (.cons "a" (.map (.cons "x" (.int 1) .nil)) .nil)
      (.cons "a" (.map (.cons "y" (.int 2) .nil)) .nil) "a"
      (.cons "x" (.int 1) .nil) (.cons "y" (.int 2) .nil) rfl rfl

/-- Counterexample to C1 as stated: with `INHERIT: [a.yaml, b.yaml]` and
key `k` bound to `1` in `a.yaml` and `2` in `b.yaml`, the merged result
binds `k` to `b.yaml`'s value `2`, not `a.yaml`'s value `1` — the loop
`for p_path in reversed(file_paths): data = merge(data, parent_data)`
leaves the earlier entry as the bottom layer, so later entries take
precedence. -/
theorem inheritance_precedence_counterexample :
    loadYamlFileE 3 exFS1 ["c.yaml"] true
      = .ok (.map (.ofList [("k", .int 2), ("onlyA", .str "A"),
          ("onlyB", .str "B"), ("own", .str "child")])) ∧
    (YValue.int 2 : YValue) ≠ .int 1 := by
  refine ⟨rfl, fun h => ?_⟩
  injection h with h'
  omega

/-- C1 amended: for a child `c` containing `INHERIT: [a, b]` loaded with
inheritance resolution enabled, the result is the child merged over `b`
merged over `a`; for every key present in both parents (values not both
mappings) and not set by the child, the merged result uses `b`'s value —
later entries in the list take precedence over earlier ones — and for
every key present with a non-mapping value in `c`, the merged result uses
`c`'s value (the child takes precedence over all listed parents). -/
theorem inheritance_precedence_amended (fuel : Nat) (fs : FS) (cpath : FPath)
    (ces aes bes : YMap) (a b : String)
    (hc : lookupFS fs cpath = some (.map ces))
    (hi : findVal "INHERIT" ces
      = some (.seq (.cons (.str a) (.cons (.str b) .nil))))
    (ha : lookupFS fs (cpath.dropLast ++ [a]) = some (.map aes))
    (hb : lookupFS fs (cpath.dropLast ++ [b]) = some (.map bes))
    (hna : findVal "INHERIT" aes = none)
    (hnb : findVal "INHERIT" bes = none) :
    loadYamlFileE (fuel + 2) fs cpath true
      = .ok (.map (mergeEntries
          (mergeEntries (removeKey "INHERIT" ces) bes) aes)) ∧
    (∀ (k : String) (va vb : YValue),
      findVal k (removeKey "INHERIT" ces) = none →
      findVal k aes = some va → findVal k bes = some vb →
      isMapB va = false ∨ isMapB vb = false →
      findVal k (mergeEntries (mergeEntries (removeKey "INHERIT" ces) bes) aes)
        = some vb) ∧
    (∀ (k : String) (vc : YValue), k ≠ "INHERIT" →
      findVal k ces = some vc → isMapB vc = false →
      findVal k (mergeEntries (mergeEntries (removeKey "INHERIT" ces) bes) aes)
        = some vc) := by
  refine ⟨?_, ?_, ?_⟩
  · show loadYamlFileE ((fuel + 1) + 1) fs cpath true = _
    simp only [loadYamlFileE, hc]
    simp [resolveInheritCore, hi, ha, hb, hna, hnb, isFalsy, YList.isEmpty,
      pathListOf, strPaths, mergeParentsCore, merge_map_eq]
  · intro k va vb h0 hA hB hor
    have h1 : findVal k (mergeEntries (removeKey "INHERIT" ces) bes)
        = some vb := by
      rw [findVal_mergeEntries, h0, hB]
    rw [findVal_mergeEntries, h1, hA]
    dsimp only
    rw [merge_nonmap vb va hor.symm]
  · intro k vc hk hvc hnm
    have h0 : findVal k (removeKey "INHERIT" ces) = some vc := by
      rw [findVal_removeKey k "INHERIT" hk]
      exact hvc
    have h1 : findVal k (mergeEntries (removeKey "INHERIT" ces) bes)
        = some vc := by
      rw [findVal_mergeEntries, h0]
      cases hbe : findVal k bes with
      | none => rfl
      | some bv =>
        dsimp only
        rw [merge_nonmap vc bv (Or.inl hnm)]
    rw [findVal_mergeEntries, h1]
    cases hae : findVal k aes with
    | none => rfl
    | some av =>
      dsimp only
      rw [merge_nonmap vc av (Or.inl hnm)]

/-- Witness for the amended C1 at the concrete two-parent filesystem
`exFS1`. -/
theorem inheritance_precedence_amended_witness :
    loadYamlFileE 3 exFS1 ["c.yaml"] true
      = .ok (.map (mergeEntries (mergeEntries
          (removeKey "INHERIT" (.ofList
            [("INHERIT", .seq (.ofList [.str "a.yaml", .str "b.yaml"])),
             ("own", .str "child")]))
          (.ofList [("k", .int 2), ("onlyB", .str "B")]))
          (.ofList [("k", .int 1), ("onlyA", .str "A")]))) ∧
    (∀ (k : String) (va vb : YValue),
      findVal k (removeKey "INHERIT" (.ofList
        [("INHERIT", .seq (.ofList [.str "a.yaml", .str "b.yaml"])),
         ("own", .str "child")])) = none →
      findVal k (.ofList [("k", .int 1), ("onlyA", .str "A")]) = some va →
      findVal k (.ofList [("k", .int 2), ("onlyB", .str "B")]) = some vb →
      isMapB va = false ∨ isMapB vb = false →
      findVal k (mergeEntries (mergeEntries
        (removeKey "INHERIT" (.ofList
          [("INHERIT", .seq (.ofList [.str "a.yaml", .str "b.yaml"])),
           ("own", .str "child")]))
        (.ofList [("k", .int 2), ("onlyB", .str "B")]))
        (.ofList [("k", .int 1), ("onlyA", .str "A")])) = some vb) ∧
    (∀ (k : String) (vc : YValue), k ≠ "INHERIT" →
      findVal k (.ofList
        [("INHERIT", .seq (.ofList [.str "a.yaml", .str "b.yaml"])),
         ("own", .str "child")]) = some vc →
      isMapB vc = false →
      findVal k (mergeEntries (mergeEntries
        (removeKey "INHERIT" (.ofList
          [("INHERIT", .seq (.ofList [.str "a.yaml", .str "b.yaml"])),
           ("own", .str "child")]))
        (.ofList [("k", .int 2), ("onlyB", .str "B")]))
        (.ofList [("k", .int 1), ("onlyA", .str "A")])) = some vc) :=
  inheritance_precedence_amended 1 exFS1 ["c.yaml"]
    (.ofList [("INHERIT", .seq (.ofList [.str "a.yaml", .str "b.yaml"])),
      ("own", .str "child")])
    (.ofList [("k", .int 1), ("onlyA", .str "A")])
    (.ofList [("k", .int 2), ("onlyB", .str "B")])
    "a.yaml" "b.yaml" rfl rfl rfl rfl rfl rfl

/-- C4, evaluated at the failing input: `load_universal.load_file` on a file
whose document carries `INHERIT`, called with `resolve_inherit=True`,
returns the document with the directive intact — zero resolution passes,
because `load_file` returns `load(text, mode, verify_type=verify_type)`
without forwarding `resolve_inherit`, whose default is `False`.  By
contrast `yaml_loaders.load_yaml_file` on the same filesystem resolves the
directive exactly once. -/
theorem load_file_universal_skips_inherit :
    loadFileU 5 uFS ["cfg.yaml"] true
      = .ok (.map (.ofList
          [("INHERIT", .str "base.yaml"), ("name", .str "cfg")])) ∧
    hasInheritTop (.map (.ofList
      [("INHERIT", .str "base.yaml"), ("name", .str "cfg")])) = true ∧
    loadYamlFileE 5 uFS ["cfg.yaml"] true
      = .ok (.map (.ofList
          [("version", .str "1.0"), ("name", .str "cfg")])) :=
  ⟨rfl, rfl, rfl⟩

/-- C10: when the inheritance resolver acts on a mapping document with an
`INHERIT` key and a usable source directory, the caller's document object
ends up with exactly the `INHERIT` entry popped: its final state is the
original mapping minus that entry, every other top-level entry untouched,
and the returned merged tree is the merger's fold over the popped
document. -/
theorem resolve_inherit_pops_in_place
    (loadFn : FPath → Except LoadErr YValue) (dir : FPath) (es : YMap)
    (pv : YValue) (hi : findVal "INHERIT" es = some pv) :
    (∀ r st, resolveInheritCore loadFn (some dir) (.map es) = .ok (r, st) →
      st = .map (removeKey "INHERIT" es)) ∧
    (∀ k, k ≠ "INHERIT" →
      findVal k (removeKey "INHERIT" es) = findVal k es) ∧
    findVal "INHERIT" (removeKey "INHERIT" es) = none ∧
    (∀ ps r, isFalsy pv = false → pathListOf pv = some ps →
      resolveInheritCore loadFn (some dir) (.map es)
        = .ok (r, .map (removeKey "INHERIT" es)) →
      mergeParentsCore loadFn dir ps.reverse
        (.map (removeKey "INHERIT" es)) = .ok r) := by
  refine ⟨?_, fun k hk => findVal_removeKey k "INHERIT" hk es,
    findVal_removeKey_self "INHERIT" es, ?_⟩
  · intro r st h
    simp only [resolveInheritCore, hi] at h
    by_cases hf : isFalsy pv = true
    · simp only [hf, if_true] at h
      cases h
      rfl
    · simp only [Bool.not_eq_true] at hf
      simp only [hf, Bool.false_eq_true, if_false] at h
      cases hp : pathListOf pv with
      | none => rw [hp] at h; simp at h
      | some ps =>
        rw [hp] at h
        dsimp only at h
        cases hm : mergeParentsCore loadFn dir ps.reverse
            (.map (removeKey "INHERIT" es)) with
        | error e => rw [hm] at h; simp at h
        | ok merged =>
          rw [hm] at h
          cases h
          rfl
  · intro ps r hf hp h
    simp only [resolveInheritCore, hi, hf, Bool.false_eq_true, if_false,
      hp] at h
    cases hm : mergeParentsCore loadFn dir ps.reverse
        (.map (removeKey "INHERIT" es)) with
    | error e => rw [hm] at h; simp at h
    | ok merged =>
      rw [hm] at h
      simp only [Except.ok.injEq, Prod.mk.injEq] at h
      rw [h.1]

/-- Witness for C10 at a concrete resolver call: the caller's document
state afterwards is the original minus `INHERIT`, the other entry is
untouched, and the result is the merger's fold. -/
theorem resolve_inherit_pops_in_place_witness :
    (∀ r st, resolveInheritCore (fun _ => .ok (.map .nil)) (some [])
        (.map (.cons "INHERIT" (.str "p.yaml") (.cons "x" (.int 1) .nil)))
        = .ok (r, st) →
      st = .map (removeKey "INHERIT"
        (.cons "INHERIT" (.str "p.yaml") (.cons "x" (.int 1) .nil)))) ∧
    (∀ k, k ≠ "INHERIT" →
      findVal k (removeKey "INHERIT"
        (.cons "INHERIT" (.str "p.yaml") (.cons "x" (.int 1) .nil)))
        = findVal k (.cons "INHERIT" (.str "p.yaml")
            (.cons "x" (.int 1) .nil))) ∧
    findVal "INHERIT" (removeKey "INHERIT"
      (.cons "INHERIT" (.str "p.yaml") (.cons "x" (.int 1) .nil))) = none ∧
    (∀ ps r, isFalsy (.str "p.yaml") = false →
      pathListOf (.str "p.yaml") = some ps →
      resolveInheritCore (fun _ => .ok (.map .nil)) (some [])
        (.map (.cons "INHERIT" (.str "p.yaml") (.cons "x" (.int 1) .nil)))
        = .ok (r, .map (removeKey "INHERIT"
            (.cons "INHERIT" (.str "p.yaml") (.cons "x" (.int 1) .nil)))) →
      mergeParentsCore (fun _ => .ok (.map .nil)) [] ps.reverse
        (.map (removeKey "INHERIT"
          (.cons "INHERIT" (.str "p.yaml") (.cons "x" (.int 1) .nil))))
        = .ok r) :=
  resolve_inherit_pops_in_place (fun _ => .ok (.map .nil)) []
    (.cons "INHERIT" (.str "p.yaml") (.cons "x" (.int 1) .nil))
    (.str "p.yaml") rfl

/-- Counterexample to C9 as stated: on a mapping node, when rendering a
dictionary key raises a non-template exception, the `except Exception`
fallback `return loader.construct_scalar(node)` does not return the node's
raw unresolved value — `construct_scalar` itself raises a
`ConstructorError` on a non-scalar node, so the parse aborts with that
error instead of degrading gracefully. -/
theorem template_fallback_counterexample :
    constructJinja2Str (some badRender) true true
      (.mapping (.cons "x" (.int 1) .nil)) = .error .consError ∧
    (Except.error JErr.consError : Except JErr YValue)
      ≠ .ok (.map (.cons "x" (.int 1) .nil)) :=
  ⟨rfl, fun h => by injection h⟩

/-- C9 amended: during template resolution of a node, a template-engine
error propagates immediately and fails the whole parse (for scalar nodes
and for key rendering on mapping nodes alike); any other unexpected error
while resolving a scalar node degrades gracefully to returning that node's
raw unresolved scalar; but on a mapping node any other unexpected error is
answered with `construct_scalar(node)`, which raises a constructor error on
the non-scalar node, aborting the parse.  In every case the node is never
silently dropped: the constructor returns either a value or an error. -/
theorem template_error_handling_amended
    (render : String → Except RenderErr String) (rdk : Bool) :
    (∀ s, render s = .error .template →
      constructJinja2Str (some render) true rdk (.scalar s)
        = .error .template) ∧
    (∀ es, renderKeysM render es = .error .template →
      constructJinja2Str (some render) true true (.mapping es)
        = .error .template) ∧
    (∀ s, render s = .error .other →
      constructJinja2Str (some render) true rdk (.scalar s)
        = .ok (.str s)) ∧
    (∀ s t, render s = .ok t →
      constructJinja2Str (some render) true rdk (.scalar s)
        = .ok (.str t)) ∧
    (∀ es, renderKeysM render es = .error .other →
      constructJinja2Str (some render) true true (.mapping es)
        = .error .consError) := by
  refine ⟨?_, ?_, ?_, ?_, ?_⟩
  · intro s h
    simp [constructJinja2Str, jinjaBody, h, renderErrToJ]
  · intro es h
    simp [constructJinja2Str, jinjaBody, h, renderErrToJ]
  · intro s h
    simp [constructJinja2Str, jinjaBody, h, renderErrToJ, constructScalar]
  · intro s t h
    simp [constructJinja2Str, jinjaBody, h]
  · intro es h
    simp [constructJinja2Str, jinjaBody, h, renderErrToJ, constructScalar]

/-- Witness for the amended C9 at concrete renders and nodes. -/
theorem template_error_handling_amended_witness :
    constructJinja2Str
      (some (fun _ => .error RenderErr.template)) true false (.scalar "t")
      = .error .template ∧
    constructJinja2Str (some badRender) true false (.scalar "t")
      = .ok (.str "t") ∧
    constructJinja2Str (some (fun s => .ok (s ++ "!"))) true false
      (.scalar "t") = .ok (.str "t!") ∧
    constructJinja2Str (some badRender) true true
      (.mapping (.cons "x" (.null) .nil)) = .error .consError := by
  refine ⟨?_, ?_, ?_, ?_⟩
  · exact (template_error_handling_amended
      (fun _ => .error RenderErr.template) false).1 "t" rfl
  · exact (template_error_handling_amended badRender false).2.2.1 "t" rfl
  · exact (template_error_handling_amended
      (fun s => .ok (s ++ "!")) false).2.2.2.1 "t" "t!" rfl
  · exact (template_error_handling_amended badRender true).2.2.2.2
      (.cons "x" (.null) .nil) rfl
